import Mathlib

/-!
# Verification of the ficha-digital affiliation backend

Shallow embedding of the affiliation lifecycle, listing and dashboard
logic of the Express/PostgreSQL backend (`index.js` and its earlier
revisions).  Timestamps and calendar days are modelled as `Nat`,
geographic coordinates and monetary amounts as `Int`, the JSON
`form_data` document as an association list of string key/value pairs,
and the SQL `affiliations` table as a list of records.  Fallible
endpoint handlers return `Except ApiError`.

In the revision that carries the draft-update and present endpoints,
the ownership and status guards read `checkQuery.rows.user_id`,
`checkQuery.rows.status` and `checkQuery.rows.form_data` — property
reads on the rows *array* itself, without `[0]` — which are JS
`undefined` on every pg result.  The embedding models those reads
literally (`rowsUserId`, `rowsStatus`, `rowsFormData` below): both
handlers reject every request that passes the length check, and their
UPDATE statements are unreachable.  The status-change endpoint of the
current revision does read `rows[0]` and is embedded accordingly.
-/

namespace Ficha

/-- Error outcomes of the HTTP handlers: 400 (validation), 404 (not
found), 403 (forbidden), 409 (conflict / invalid state). -/
inductive ApiError where
  | validation
  | notFound
  | forbidden
  | conflict
deriving DecidableEq

/-- The JSON `form_data` document: an association list of string
fields (first binding of a key wins, as JS object keys are unique). -/
abbrev FormData := List (String × String)

/-- Reading a field of `form_data` (JS property access / SQL `->>`);
`none` models an absent key (JS `undefined`, SQL NULL). -/
def FormData.get (fd : FormData) (k : String) : Option String :=
  (fd.find? (fun p => p.1 == k)).map (fun p => p.2)

/-- Assigning a field of a JS object (`obj.k = v`). -/
def FormData.set (fd : FormData) (k v : String) : FormData :=
  fd.filter (fun p => p.1 != k) ++ [(k, v)]

/-- The identity carried by the verified bearer token (`req.user`):
`userId`, `name` (`full_name`) and `role`. -/
structure User where
  userId : Nat
  name : String
  role : String
deriving DecidableEq

/-- One row of the `affiliations` table, joined (where the queries do
so) with the creator row of `users`; `vendorName` stands for the joined
`users.full_name` of the creator.  `Option` fields model NULLable
columns. -/
structure Affiliation where
  id : Nat
  userId : Nat
  formData : FormData
  titularNombre : String
  titularDni : Option String
  plan : Option String
  latitud : Option Int
  longitud : Option Int
  domicilioLatitud : Option Int
  domicilioLongitud : Option Int
  status : String
  statusChangeUserId : Option Nat
  statusChangeTimestamp : Option Nat
  rechazoMotivo : Option String
  fechaPresentacion : Option Nat
  fechaCreacion : Nat
  vendorName : String
deriving DecidableEq

/-- The `affiliations` table. -/
abbrev DB := List Affiliation

/-- `SELECT ... FROM affiliations WHERE id = $1`, reading `rows[0]`
(ids are the primary key, so at most one row matches). -/
def findById (db : DB) (id : Nat) : Option Affiliation :=
  db.find? (fun a => a.id == id)

/-- `UPDATE affiliations SET ... WHERE id = $n`: rewrite the matching
row, leave every other row unchanged. -/
def updateById (db : DB) (id : Nat) (f : Affiliation → Affiliation) : DB :=
  db.map (fun a => if a.id == id then f a else a)

/-- `` `${formData.apellidoTitular || ""}, ${formData.nombreTitular || ""}` ``
(the `titular_nombre` promoted column computed at write time). -/
def titularNombreOf (fd : FormData) : String :=
  ((fd.get "apellidoTitular").getD "") ++ ", " ++ ((fd.get "nombreTitular").getD "")

/-- JS `String.prototype.trim()`: strip whitespace from both ends
(written over the character list so that it evaluates in the kernel). -/
def jsTrim (s : String) : String :=
  ⟨((s.data.dropWhile Char.isWhitespace).reverse.dropWhile Char.isWhitespace).reverse⟩

/-- JS `!motivo || motivo.trim() === ""` on the request-body field
`motivo` (`none` models an absent field, which is falsy). -/
def motivoBlank : Option String → Bool
  | none => true
  | some m => jsTrim m == ""

/-- `POST /api/submit-ficha` / `POST /api/affiliations`: the freshly
inserted row.  `lat`/`lng` come from the request body, `dlat`/`dlng`
from `formData.latitudDomicilio` / `formData.longitudDomicilio`
(numeric JSON fields, taken here as separate parameters).  Modelled
from the spec: the `status` column default `'Abierta'` and the NULL
defaults of the status-change columns are schema facts not present in
the sources (the create route's comment reads "COMIENZA EN ESTADO
'Abierta'"). -/
def newAffiliation (u : User) (fd : FormData)
    (lat lng dlat dlng : Option Int) (newId now : Nat) : Affiliation where
  id := newId
  userId := u.userId
  formData := fd
  titularNombre := titularNombreOf fd
  titularDni := fd.get "dniTitular"
  plan := fd.get "plan"
  latitud := lat
  longitud := lng
  domicilioLatitud := dlat
  domicilioLongitud := dlng
  status := "Abierta"
  statusChangeUserId := none
  statusChangeTimestamp := none
  rechazoMotivo := none
  fechaPresentacion := none
  fechaCreacion := now
  vendorName := u.name

/-- `POST /api/submit-ficha` (`index.js`): `INSERT INTO affiliations
... RETURNING *`. -/
def createFicha (db : DB) (u : User) (fd : FormData)
    (lat lng dlat dlng : Option Int) (newId now : Nat) : DB :=
  db ++ [newAffiliation u fd lat lng dlat dlng newId now]

/-- The `SET` clause of the draft-update statement: `form_data`, the
promoted columns and the sale geolocation. -/
def draftPatch (fd : FormData) (lat lng : Option Int) (a : Affiliation) : Affiliation :=
  { a with formData := fd, titularNombre := titularNombreOf fd,
           titularDni := fd.get "dniTitular", plan := fd.get "plan",
           latitud := lat, longitud := lng }

/-- `checkQuery.rows.user_id`: a property read on the rows array
itself — the source omits `[0]` — which is JS `undefined` on every pg
result. -/
def rowsUserId : Option Nat := none

/-- `checkQuery.rows.status`: likewise a read on the array, JS
`undefined`. -/
def rowsStatus : Option String := none

/-- `checkQuery.rows.form_data`: likewise a read on the array, JS
`undefined` (so `checkQuery.rows.form_data || {}` yields the empty
object). -/
def rowsFormData : Option FormData := none

/-- `PUT /api/affiliations/:id` (draft update, earlier revision of
`index.js`): 404 if no row matches the id; then the guard
`req.user.role === 'VENDEDOR' && checkQuery.rows.user_id !== userId`
compares the `undefined` array read with the caller's id — strictly
unequal for every caller — so every VENDEDOR (the creator included)
is answered 403; then `checkQuery.rows.status !== 'Abierta'` compares
`undefined` with `'Abierta'`, so every remaining caller is answered
409.  The UPDATE rewriting `form_data`, the promoted columns and the
geolocation is dead code. -/
def updateFicha (db : DB) (u : User) (id : Nat) (fd : FormData)
    (lat lng : Option Int) : Except ApiError DB :=
  match findById db id with
  | none => .error .notFound
  | some _r =>
    if u.role == "VENDEDOR" && rowsUserId != some u.userId then .error .forbidden
    else if rowsStatus != some "Abierta" then .error .conflict
    else .ok (updateById db id (draftPatch fd lat lng))

/-- The `SET` clause of the present statement: `status = 'Presentado',
fecha_presentacion = NOW(), form_data = $1`, where `$1` is the read
row's `form_data` with `solicitud` assigned. -/
def presentPatch (rfd : FormData) (n : String) (now : Nat) (a : Affiliation) : Affiliation :=
  { a with status := "Presentado", fechaPresentacion := some now,
           formData := rfd.set "solicitud" n }

/-- `PUT /api/affiliations/:id/present` (earlier revision of
`index.js`): 400 if `numeroSolicitud` is missing/empty, 404 if no row
matches the id; then the same `undefined` array reads as in the draft
update (`checkQuery.rows.user_id`, `checkQuery.rows.status`, without
`[0]`) make the guards constantly true: every VENDEDOR is answered
403 and every remaining caller 409.  The
`UPDATE ... SET status = 'Presentado', fecha_presentacion = NOW(),
form_data = $1` (with `$1` the `undefined || {}` document plus the
assigned `solicitud`) is dead code. -/
def presentFicha (db : DB) (u : User) (id : Nat)
    (numeroSolicitud : String) (now : Nat) : Except ApiError DB :=
  if numeroSolicitud == "" then .error .validation
  else
    match findById db id with
    | none => .error .notFound
    | some _r =>
      if u.role == "VENDEDOR" && rowsUserId != some u.userId then .error .forbidden
      else if rowsStatus != some "Abierta" then .error .conflict
      else .ok (updateById db id
        (presentPatch (rowsFormData.getD []) numeroSolicitud now))

/-- The JSON body answered by the status-change endpoint (`RETURNING
status, status_change_timestamp, rechazo_motivo`). -/
structure StatusChangeResp where
  newStatus : String
  timestamp : Nat
  motivo : Option String
deriving DecidableEq

/-- The `SET` clause of the status-change statement: the new status,
the acting user, the current time, and the motivo only when
rejecting (`newStatus === "Rechazado" ? motivo : null`). -/
def statusPatch (u : User) (ns : String) (motivo : Option String) (now : Nat)
    (a : Affiliation) : Affiliation :=
  { a with status := ns, statusChangeUserId := some u.userId,
           statusChangeTimestamp := some now,
           rechazoMotivo := if ns == "Rechazado" then motivo else none }

/-- `PUT /api/affiliations/:id/status` (`index.js`): validation of
`newStatus` and of the rejection `motivo`, 404 if no row, 409 if the
row is not `'Presentado'`; otherwise stamp the new status, the acting
user and the current time, store the motivo only when rejecting, and
answer with the row's new status, timestamp and motivo. -/
def changeStatusAff (db : DB) (u : User) (id : Nat) (newStatus : String)
    (motivo : Option String) (now : Nat) :
    Except ApiError (DB × StatusChangeResp) :=
  if !(newStatus == "Aprobado" || newStatus == "Rechazado") then .error .validation
  else if newStatus == "Rechazado" && motivoBlank motivo then .error .validation
  else
    match findById db id with
    | none => .error .notFound
    | some r =>
      if r.status != "Presentado" then .error .conflict
      else
        .ok (updateById db id (statusPatch u newStatus motivo now),
             ⟨newStatus, now,
              if newStatus == "Rechazado" then motivo else none⟩)

/-! ## Listing (`GET /api/affiliations`, current revision) -/

/-- Does the character list `p` occur at the start of `h`? -/
def strStarts : List Char → List Char → Bool
  | _, [] => true
  | [], _ :: _ => false
  | c :: t, d :: q => c == d && strStarts t q

/-- Does the character list `p` occur somewhere inside `h`? -/
def strHasSub : List Char → List Char → Bool
  | [], p => p.isEmpty
  | c :: t, p => strStarts (c :: t) p || strHasSub t p

/-- Lower-casing a string character by character (collation model for
`ILIKE`). -/
def lowerStr (s : String) : String := ⟨s.data.map Char.toLower⟩

/-- SQL `col ILIKE '%pat%'`: case-insensitive substring match. -/
def likeMatch (s pat : String) : Bool :=
  strHasSub (lowerStr s).data (lowerStr pat).data

/-- `ILIKE` on a NULLable column: NULL matches nothing. -/
def optLike (s : Option String) (pat : String) : Bool :=
  match s with
  | none => false
  | some v => likeMatch v pat

/-- The `a.user_id = $1` clause added for VENDEDOR callers (true for
rows the clause keeps; absent — hence true — for other roles). -/
def vendedorScope (u : User) (a : Affiliation) : Bool :=
  u.role != "VENDEDOR" || a.userId == u.userId

/-- The free-text `filter` clause: `ILIKE '%filter%'` over titular
name, titular DNI, plan and the joined vendor name. -/
def filterMatch (filter : String) (a : Affiliation) : Bool :=
  likeMatch a.titularNombre filter || optLike a.titularDni filter ||
    optLike a.plan filter || likeMatch a.vendorName filter

/-- The `WHERE` part of the listing query (the `filter` clause is only
added when the query parameter is present and non-empty, `if (filter)`). -/
def listFiltered (db : DB) (u : User) (filter : String) : List Affiliation :=
  db.filter (fun a => vendedorScope u a && (filter == "" || filterMatch filter a))

/-- Lexicographic comparison of character lists (collation model for
`ORDER BY` on text columns). -/
def charListLe : List Char → List Char → Bool
  | [], _ => true
  | _ :: _, [] => false
  | c :: s, d :: t => if c == d then charListLe s t else decide (c < d)

/-- Text-column `ORDER BY` comparison. -/
def strLe (s t : String) : Bool := charListLe s.data t.data

/-- Text-column `ORDER BY` comparison with SQL NULLS LAST (ascending
default). -/
def optStrLe (x y : Option String) : Bool :=
  match x, y with
  | some a, some b => strLe a b
  | some _, none => true
  | none, some _ => false
  | none, none => true

/-- `CAST(a.form_data ->> 'total' AS NUMERIC)`: amounts are modelled
as unsigned integers; a missing or non-numeric field is NULL-like. -/
def parseNumOpt (s : String) : Option Nat :=
  if s.data ≠ [] && s.data.all Char.isDigit then
    some (s.data.foldl (fun acc c => acc * 10 + (c.toNat - 48)) 0)
  else none

/-- Numeric `ORDER BY` comparison with NULLS LAST. -/
def optNumLe (x y : Option Nat) : Bool :=
  match x, y with
  | some a, some b => a ≤ b
  | some _, none => true
  | none, some _ => false
  | none, none => true

/-- The `orderByMap` whitelist: `orderByMap[sortBy] || "a.fecha_creacion"`,
as an ascending comparison on the selected column. -/
def keyLe (sortBy : String) (a b : Affiliation) : Bool :=
  if sortBy == "titular_nombre" then strLe a.titularNombre b.titularNombre
  else if sortBy == "plan" then optStrLe a.plan b.plan
  else if sortBy == "total" then
    optNumLe ((a.formData.get "total").bind parseNumOpt)
      ((b.formData.get "total").bind parseNumOpt)
  else if sortBy == "status" then strLe a.status b.status
  else if sortBy == "vendor_name" then strLe a.vendorName b.vendorName
  else a.fechaCreacion ≤ b.fechaCreacion

/-- `descending === "true" ? "DESC" : "ASC"`: any other value of the
`descending` query parameter (including its absence, modelled as `""`)
sorts ascending. -/
def rowLe (sortBy descending : String) (a b : Affiliation) : Bool :=
  if descending == "true" then keyLe sortBy b a else keyLe sortBy a b

/-- Insertion into a sorted list (model of `ORDER BY`). -/
def insertLe {α : Type} (le : α → α → Bool) (a : α) : List α → List α
  | [] => [a]
  | b :: l => if le a b then a :: b :: l else b :: insertLe le a l

/-- Sorting the result set by the selected comparison (model of
`ORDER BY`; SQL leaves the order of ties unspecified, insertion sort
picks one such order). -/
def sortRows {α : Type} (le : α → α → Bool) : List α → List α
  | [] => []
  | a :: l => insertLe le a (sortRows le l)

/-- `GET /api/affiliations` (current revision): VENDEDOR scoping and
free-text filter, whitelist sort, offset pagination with
`OFFSET (page-1)*rowsPerPage` and `LIMIT rowsPerPage` — except that
`rowsPerPage = 0` omits the `LIMIT` clause entirely.  Returns the
selected rows (the response projects a subset of their columns). -/
def listAffiliations (db : DB) (u : User) (page rowsPerPage : Nat)
    (filter sortBy descending : String) : List Affiliation :=
  let sorted := sortRows (rowLe sortBy descending) (listFiltered db u filter)
  let offset := (page - 1) * rowsPerPage
  if rowsPerPage == 0 then sorted.drop offset
  else (sorted.drop offset).take rowsPerPage

/-! ## Detail and PDF endpoints -/

/-- `GET /api/affiliations/:id`: the lookup adds `AND a.user_id = $2`
for VENDEDOR callers and answers 404 when no row matches.  We model
the selected row (the response reshapes it and joins photo
metadata). -/
def getAffiliationDetail (db : DB) (u : User) (id : Nat) :
    Except ApiError Affiliation :=
  match db.find? (fun a => a.id == id &&
      (u.role != "VENDEDOR" || a.userId == u.userId)) with
  | none => .error .notFound
  | some r => .ok r

/-- `GET /api/affiliations/:id/pdf`: plain `SELECT * FROM affiliations
WHERE id = $1`, 404 when empty, otherwise the row is rendered and
streamed; the handler never consults the caller's role or the row's
creator (`u` is unused).  We model the selected row standing for the
rendered document's data. -/
def pdfEndpoint (db : DB) (_u : User) (id : Nat) :
    Except ApiError Affiliation :=
  match findById db id with
  | none => .error .notFound
  | some r => .ok r

/-! ## Dashboard (`POST /api/dashboard`, current revision) -/

/-- The dashboard fetch condition: creation date in
`[startDate, endDate + 1)` (the handler widens the end date by one
day; days are modelled as `Nat`), plus the four optional filters,
each added only when the body field is present and non-empty
(`if (selectedX)`). -/
def dashFilter (startDate endDate : Nat)
    (selVendor selPlan selMedioPago selEmpresa : String)
    (a : Affiliation) : Bool :=
  decide (startDate ≤ a.fechaCreacion) && decide (a.fechaCreacion < endDate + 1) &&
    (selVendor == "" || a.vendorName == selVendor) &&
    (selPlan == "" || a.plan == some selPlan) &&
    (selMedioPago == "" || a.formData.get "medioPago" == some selMedioPago) &&
    (selEmpresa == "" || a.formData.get "empresa" == some selEmpresa)

/-- The full-scan fetch feeding every dashboard aggregate. -/
def dashboardFetch (db : DB) (startDate endDate : Nat)
    (selVendor selPlan selMedioPago selEmpresa : String) : List Affiliation :=
  db.filter (dashFilter startDate endDate selVendor selPlan selMedioPago selEmpresa)

/-- KPI `totalFichas = affiliations.length`. -/
def totalFichas (l : List Affiliation) : Nat := l.length

/-- KPI `fichasAprobadas`. -/
def fichasAprobadas (l : List Affiliation) : Nat :=
  (l.filter (fun f => f.status == "Aprobado")).length

/-- KPI `fichasRechazadas`. -/
def fichasRechazadas (l : List Affiliation) : Nat :=
  (l.filter (fun f => f.status == "Rechazado")).length

/-- KPI `fichasPendientes` (records still in state `'Presentado'`). -/
def fichasPendientes (l : List Affiliation) : Nat :=
  (l.filter (fun f => f.status == "Presentado")).length

/-- One entry of the dashboard `locations` list: the record id, its
status tag and the two mapped coordinate pairs. -/
structure LocPoint where
  id : Nat
  status : String
  ventaLat : Option Int
  ventaLng : Option Int
  domLat : Option Int
  domLng : Option Int
deriving DecidableEq

/-- The `.map` step building a location entry
(`lat: f.latitud ? parseFloat(f.latitud) : null`; `parseFloat`
preserves the numeric value, so the mapped pair carries the column
values). -/
def locOf (f : Affiliation) : LocPoint :=
  ⟨f.id, f.status, f.latitud, f.longitud, f.domicilioLatitud, f.domicilioLongitud⟩

/-- JS truthiness of a mapped coordinate: `null` is falsy and so is
the number `0`. -/
def truthyCoord : Option Int → Bool
  | none => false
  | some v => v != 0

/-- The `.filter` step:
`(f.venta.lat && f.venta.lng) || (f.domicilio.lat && f.domicilio.lng)`. -/
def hasCoordPair (p : LocPoint) : Bool :=
  (truthyCoord p.ventaLat && truthyCoord p.ventaLng) ||
    (truthyCoord p.domLat && truthyCoord p.domLng)

/-- The dashboard `locations` list: map each fetched record to its
geo entry, then keep those with a truthy coordinate pair. -/
def dashLocations (l : List Affiliation) : List LocPoint :=
  (l.map locOf).filter hasCoordPair

/-! ## The affiliation state machine -/

/-- One successful state-changing request against the affiliation
store: create, draft update, present (submit) or status change.  The
create step requires the inserted id to be fresh, modelling the
store-assigned primary key of the `affiliations` table. -/
inductive Step : DB → DB → Prop where
  | create (db : DB) (u : User) (fd : FormData) (lat lng dlat dlng : Option Int)
      (newId now : Nat) (hfresh : findById db newId = none) :
      Step db (createFicha db u fd lat lng dlat dlng newId now)
  | update (db : DB) (u : User) (id : Nat) (fd : FormData) (lat lng : Option Int)
      (db' : DB) (h : updateFicha db u id fd lat lng = .ok db') : Step db db'
  | present (db : DB) (u : User) (id : Nat) (n : String) (now : Nat) (db' : DB)
      (h : presentFicha db u id n now = .ok db') : Step db db'
  | change (db : DB) (u : User) (id : Nat) (ns : String) (motivo : Option String)
      (now : Nat) (db' : DB) (resp : StatusChangeResp)
      (h : changeStatusAff db u id ns motivo now = .ok (db', resp)) : Step db db'

/-- Tables reachable from the empty table by the four operations. -/
inductive Reachable : DB → Prop where
  | init : Reachable []
  | step {db db' : DB} : Reachable db → Step db db' → Reachable db'

/-- The status of the row with the given id, when it exists. -/
def statusOf (db : DB) (id : Nat) : Option String :=
  (findById db id).map Affiliation.status

/-- The transitions the specification allows in one step: stay put,
`Abierta → Presentado`, or `Presentado → Aprobado/Rechazado`. -/
def StatusEdge (s s' : String) : Prop :=
  s' = s ∨ (s = "Abierta" ∧ s' = "Presentado") ∨
    (s = "Presentado" ∧ (s' = "Aprobado" ∨ s' = "Rechazado"))

/-! ## Helper lemmas about lookups and updates -/

theorem findById_some_id {db : DB} {id : Nat} {r : Affiliation}
    (h : findById db id = some r) : r.id = id := by
  induction db with
  | nil => simp [findById] at h
  | cons a t ih =>
    simp only [findById, List.find?] at h
    by_cases ha : a.id = id
    · have hb : (a.id == id) = true := by simp [ha]
      rw [hb] at h
      injection h with h2
      rw [← h2]
      exact ha
    · have hb : (a.id == id) = false := by simp [ha]
      rw [hb] at h
      exact ih h

theorem findById_updateById (db : DB) (id pid : Nat) (f : Affiliation → Affiliation)
    (hf : ∀ a, (f a).id = a.id) :
    findById (updateById db id f) pid =
      (findById db pid).map (fun a => if a.id == id then f a else a) := by
  induction db with
  | nil => simp [findById, updateById]
  | cons a t ih =>
    have hhead : (if a.id == id then f a else a).id = a.id := by
      by_cases hid : a.id = id <;> simp [hid, hf]
    simp only [findById, updateById, List.map_cons, List.find?] at *
    by_cases hpid : a.id = pid
    · have hb : (a.id == pid) = true := by simp [hpid]
      have hb' : ((if a.id == id then f a else a).id == pid) = true := by
        rw [hhead]
        exact hb
      rw [hb, hb']
      simp
    · have hb : (a.id == pid) = false := by simp [hpid]
      have hb' : ((if a.id == id then f a else a).id == pid) = false := by
        rw [hhead]
        exact hb
      rw [hb, hb']
      exact ih

theorem findById_append_single (db : DB) (r : Affiliation) (pid : Nat) :
    findById (db ++ [r]) pid =
      match findById db pid with
      | some a => some a
      | none => if r.id == pid then some r else none := by
  induction db with
  | nil =>
    simp only [findById, List.nil_append, List.find?]
    cases hb : (r.id == pid) <;> simp [hb]
  | cons a t ih =>
    simp only [findById, List.cons_append, List.find?] at *
    by_cases hpid : a.id = pid
    · have hb : (a.id == pid) = true := by simp [hpid]
      rw [hb]
    · have hb : (a.id == pid) = false := by simp [hpid]
      rw [hb]
      exact ih

theorem mem_updateById {db : DB} {id : Nat} {f : Affiliation → Affiliation}
    {r : Affiliation} (h : r ∈ updateById db id f) :
    ∃ a, a ∈ db ∧ r = if a.id == id then f a else a := by
  rcases List.mem_map.mp h with ⟨a, ha, hr⟩
  exact ⟨a, ha, hr.symm⟩

theorem updateFicha_not_ok {db : DB} {u : User} {id : Nat} {fd : FormData}
    {lat lng : Option Int} {db' : DB}
    (h : updateFicha db u id fd lat lng = .ok db') : False := by
  unfold updateFicha at h
  split at h
  next heq => simp at h
  next r heq =>
    split at h
    · simp at h
    next hforb =>
      split at h
      · simp at h
      next hst => exact hst rfl

theorem presentFicha_not_ok {db : DB} {u : User} {id : Nat} {n : String}
    {now : Nat} {db' : DB} (h : presentFicha db u id n now = .ok db') :
    False := by
  unfold presentFicha at h
  split at h
  · simp at h
  next hn =>
    split at h
    next heq => simp at h
    next r heq =>
      split at h
      · simp at h
      next hforb =>
        split at h
        · simp at h
        next hst => exact hst rfl

theorem changeStatusAff_ok {db : DB} {u : User} {id : Nat} {ns : String}
    {motivo : Option String} {now : Nat} {db' : DB} {resp : StatusChangeResp}
    (h : changeStatusAff db u id ns motivo now = .ok (db', resp)) :
    (ns = "Aprobado" ∨ ns = "Rechazado") ∧
    (ns = "Rechazado" → motivoBlank motivo = false) ∧
    ∃ r, findById db id = some r ∧ r.status = "Presentado" ∧
      db' = updateById db id (statusPatch u ns motivo now) ∧
      resp = ⟨ns, now, if ns == "Rechazado" then motivo else none⟩ := by
  unfold changeStatusAff at h
  split at h
  · simp at h
  next hns =>
    split at h
    · simp at h
    next hmot =>
      split at h
      next heq => simp at h
      next r heq =>
        split at h
        · simp at h
        next hst =>
          injection h with h2
          have hdb := congrArg Prod.fst h2
          have hresp := congrArg Prod.snd h2
          simp only [Prod.fst, Prod.snd] at hdb hresp
          refine ⟨?_, ?_, r, heq, by simpa using hst, hdb.symm, hresp.symm⟩
          · have h3 : ¬ns = "Aprobado" → ns = "Rechazado" := by simpa using hns
            by_cases ha : ns = "Aprobado"
            · exact Or.inl ha
            · exact Or.inr (h3 ha)
          · intro hr
            cases hmb : motivoBlank motivo with
            | false => rfl
            | true => exact absurd (by simp [hr, hmb]) hmot

theorem step_status_total {db db' : DB} (h : Step db db') {pid : Nat} {s : String}
    (h1 : statusOf db pid = some s) :
    ∃ s', statusOf db' pid = some s' ∧ StatusEdge s s' := by
  obtain ⟨a, ha, has⟩ : ∃ a, findById db pid = some a ∧ a.status = s := by
    unfold statusOf at h1
    cases hfa : findById db pid with
    | none => rw [hfa] at h1; simp at h1
    | some a =>
      rw [hfa] at h1
      simp only [Option.map] at h1
      injection h1 with h2
      exact ⟨a, rfl, h2⟩
  cases h with
  | create u fd lat lng dlat dlng newId now hfresh =>
    refine ⟨s, ?_, Or.inl rfl⟩
    unfold statusOf createFicha
    rw [findById_append_single, ha]
    simp [has]
  | update u id fd lat lng db2 hok =>
    exact (updateFicha_not_ok hok).elim
  | present u id n now db2 hok =>
    exact (presentFicha_not_ok hok).elim
  | change u id ns motivo now db2 resp hok =>
    obtain ⟨hns, hmot, r, hr, hst, hdb, hresp⟩ := changeStatusAff_ok hok
    subst hdb
    have hcomp : statusOf (updateById db id (statusPatch u ns motivo now)) pid =
        some (if a.id == id then ns else a.status) := by
      unfold statusOf
      rw [findById_updateById db id pid (statusPatch u ns motivo now) (fun _ => rfl), ha]
      by_cases hid : a.id = id <;> simp [hid, statusPatch]
    by_cases hid : a.id = id
    · have hpid : a.id = pid := findById_some_id ha
      have hpi : pid = id := by omega
      have har : r = a := by
        rw [hpi] at ha
        rw [hr] at ha
        injection ha
      refine ⟨ns, ?_, Or.inr (Or.inr ⟨?_, hns⟩)⟩
      · rw [hcomp]
        simp [hid]
      · rw [← has, ← har]
        exact hst
    · refine ⟨s, ?_, Or.inl rfl⟩
      rw [hcomp]
      simp [hid, has]

/-! ## Sample data for concrete witnesses and counterexamples -/

def sampleFD : FormData :=
  [("apellidoTitular", "Perez"), ("nombreTitular", "Juan"),
   ("dniTitular", "123"), ("plan", "PlanA"), ("total", "100"),
   ("medioPago", "debito"), ("empresa", "ACME")]

def vendAlice : User := ⟨1, "Alice", "VENDEDOR"⟩

def vendCarol : User := ⟨3, "Carol", "VENDEDOR"⟩

def supBob : User := ⟨2, "Bob", "SUPERVISOR"⟩

def recAbierta : Affiliation :=
  newAffiliation vendAlice sampleFD (some 10) (some 20) none none 1 0

def recPresentada : Affiliation := { recAbierta with status := "Presentado" }

def dbPresentada : DB := [recPresentada]

/-! ## C1 -/

/-- C1: under create, draft update, present and status change, a
row's status only moves along `Abierta → Presentado` and
`Presentado → Aprobado/Rechazado` (or stays put); present succeeds
only on an `Abierta` row, a status change only on a `Presentado` row,
and no operation changes the status of a row already in `Aprobado` or
`Rechazado`. -/
theorem c1_status_machine :
    (∀ db db', Step db db' → ∀ pid s s',
      statusOf db pid = some s → statusOf db' pid = some s' → StatusEdge s s') ∧
    (∀ db u id n now db', presentFicha db u id n now = Except.ok db' →
      statusOf db id = some "Abierta") ∧
    (∀ db u id ns motivo now out,
      changeStatusAff db u id ns motivo now = Except.ok out →
      statusOf db id = some "Presentado") ∧
    (∀ db db', Step db db' → ∀ pid s, statusOf db pid = some s →
      s = "Aprobado" ∨ s = "Rechazado" → statusOf db' pid = some s) := by
  refine ⟨?_, ?_, ?_, ?_⟩
  · intro db db' hstep pid s s' h1 h2
    obtain ⟨s'', h2', hedge⟩ := step_status_total hstep h1
    rw [h2] at h2'
    injection h2' with h3
    rw [h3]
    exact hedge
  · intro db u id n now db' hok
    exact (presentFicha_not_ok hok).elim
  · intro db u id ns motivo now out hok
    obtain ⟨db', resp⟩ := out
    obtain ⟨hns, hmot, r, hr, hst, hdb, hresp⟩ := changeStatusAff_ok hok
    unfold statusOf
    rw [hr]
    simp [hst]
  · intro db db' hstep pid s h1 hterm
    obtain ⟨s', h2, hedge⟩ := step_status_total hstep h1
    rcases hedge with h | ⟨ha, _⟩ | ⟨hp, _⟩
    · rw [h2, h]
    · rcases hterm with ht | ht <;> rw [ht] at ha <;> simp at ha
    · rcases hterm with ht | ht <;> rw [ht] at hp <;> simp at hp

/-- Concrete run of the C1 theorem: approving a presented record is a
legal edge of the machine. -/
theorem c1_status_machine_witness : StatusEdge "Presentado" "Aprobado" := by
  have hstep : Step dbPresentada
      (updateById dbPresentada 1 (statusPatch supBob "Aprobado" none 7)) :=
    Step.change dbPresentada supBob 1 "Aprobado" none 7 _ _ rfl
  exact c1_status_machine.1 _ _ hstep 1 "Presentado" "Aprobado" rfl rfl

/-! ## C2 -/

/-- C2: the status-change endpoint fails validation when `newStatus`
is not Aprobado/Rechazado, fails validation when rejecting with a
missing or blank motivo, answers 404 when the id does not exist, 409
when the row is not in `Presentado`, and otherwise stamps the row
with the new status, the caller's id and the current time and answers
the new status, timestamp and stored motivo. -/
theorem c2_changeStatus_contract (db : DB) (u : User) (id : Nat) (ns : String)
    (motivo : Option String) (now : Nat) :
    (¬(ns = "Aprobado" ∨ ns = "Rechazado") →
      changeStatusAff db u id ns motivo now = .error .validation) ∧
    (ns = "Rechazado" → motivoBlank motivo = true →
      changeStatusAff db u id ns motivo now = .error .validation) ∧
    ((ns = "Aprobado" ∨ ns = "Rechazado") →
      (ns = "Rechazado" → motivoBlank motivo = false) →
      findById db id = none →
      changeStatusAff db u id ns motivo now = .error .notFound) ∧
    (∀ r, (ns = "Aprobado" ∨ ns = "Rechazado") →
      (ns = "Rechazado" → motivoBlank motivo = false) →
      findById db id = some r → r.status ≠ "Presentado" →
      changeStatusAff db u id ns motivo now = .error .conflict) ∧
    (∀ r, (ns = "Aprobado" ∨ ns = "Rechazado") →
      (ns = "Rechazado" → motivoBlank motivo = false) →
      findById db id = some r → r.status = "Presentado" →
      changeStatusAff db u id ns motivo now =
        .ok (updateById db id (statusPatch u ns motivo now),
             ⟨ns, now, if ns == "Rechazado" then motivo else none⟩) ∧
      findById (updateById db id (statusPatch u ns motivo now)) id =
        some { r with status := ns, statusChangeUserId := some u.userId,
                      statusChangeTimestamp := some now,
                      rechazoMotivo :=
                        if ns == "Rechazado" then motivo else none }) := by
  refine ⟨?_, ?_, ?_, ?_, ?_⟩
  · intro hns
    have h1 : (ns == "Aprobado") = false := by
      simp only [beq_eq_false_iff_ne, ne_eq]
      intro h
      exact hns (Or.inl h)
    have h2 : (ns == "Rechazado") = false := by
      simp only [beq_eq_false_iff_ne, ne_eq]
      intro h
      exact hns (Or.inr h)
    simp [changeStatusAff, h1, h2]
  · intro hr hb
    subst hr
    simp [changeStatusAff, hb]
  · intro hns hmot hfind
    have hc1 : (ns == "Aprobado" || ns == "Rechazado") = true := by
      rcases hns with h | h <;> subst h <;> simp
    have hc2 : (ns == "Rechazado" && motivoBlank motivo) = false := by
      cases hb : (ns == "Rechazado") with
      | false => simp
      | true =>
        have : ns = "Rechazado" := by simpa using hb
        simp [hmot this]
    simp [changeStatusAff, hc1, hc2, hfind]
  · intro r hns hmot hfind hstat
    have hc1 : (ns == "Aprobado" || ns == "Rechazado") = true := by
      rcases hns with h | h <;> subst h <;> simp
    have hc2 : (ns == "Rechazado" && motivoBlank motivo) = false := by
      cases hb : (ns == "Rechazado") with
      | false => simp
      | true =>
        have : ns = "Rechazado" := by simpa using hb
        simp [hmot this]
    simp [changeStatusAff, hc1, hc2, hfind, hstat]
  · intro r hns hmot hfind hstat
    have hc1 : (ns == "Aprobado" || ns == "Rechazado") = true := by
      rcases hns with h | h <;> subst h <;> simp
    have hc2 : (ns == "Rechazado" && motivoBlank motivo) = false := by
      cases hb : (ns == "Rechazado") with
      | false => simp
      | true =>
        have : ns = "Rechazado" := by simpa using hb
        simp [hmot this]
    constructor
    · simp [changeStatusAff, hc1, hc2, hfind, hstat]
    · have hrid : r.id = id := findById_some_id hfind
      rw [findById_updateById db id id (statusPatch u ns motivo now)
            (fun _ => rfl), hfind]
      simp [hrid, statusPatch]

/-- Concrete run of the C2 theorem: rejecting a presented record with
a motivo succeeds and stamps the caller and the time. -/
theorem c2_changeStatus_contract_witness :
    changeStatusAff dbPresentada supBob 1 "Rechazado" (some "docs") 7 =
      .ok (updateById dbPresentada 1 (statusPatch supBob "Rechazado" (some "docs") 7),
           ⟨"Rechazado", 7, some "docs"⟩) :=
  ((c2_changeStatus_contract dbPresentada supBob 1 "Rechazado"
      (some "docs") 7).2.2.2.2 recPresentada (Or.inr rfl) (fun _ => rfl)
      rfl rfl).1

/-! ## Primary-key uniqueness along reachable tables -/

/-- The ids of the table's rows are pairwise distinct (the primary
key of `affiliations`). -/
def IdsNodup (db : DB) : Prop := (db.map Affiliation.id).Nodup

theorem map_id_updateById (db : DB) (id : Nat) (f : Affiliation → Affiliation)
    (hf : ∀ a, (f a).id = a.id) :
    (updateById db id f).map Affiliation.id = db.map Affiliation.id := by
  unfold updateById
  rw [List.map_map]
  apply List.map_congr_left
  intro a _
  by_cases hid : a.id = id <;> simp [hid, hf]

theorem reachable_idsNodup {db : DB} (h : Reachable db) : IdsNodup db := by
  induction h with
  | init => simp [IdsNodup]
  | @step db db' hreach hstep ih =>
    cases hstep with
    | create u fd lat lng dlat dlng newId now hfresh =>
      unfold IdsNodup createFicha
      rw [List.map_append]
      simp only [List.map_cons, List.map_nil]
      rw [List.nodup_append]
      refine ⟨ih, List.nodup_singleton _, ?_⟩
      intro x hx hx'
      have hxid : x = newId := by simpa [newAffiliation] using hx'
      subst hxid
      rcases List.mem_map.mp hx with ⟨a, ha, hak⟩
      have h0 := List.find?_eq_none.mp hfresh a ha
      simp [hak] at h0
    | update u id fd lat lng db2 hok =>
      exact (updateFicha_not_ok hok).elim
    | present u id n now db2 hok =>
      exact (presentFicha_not_ok hok).elim
    | change u id ns motivo now db2 resp hok =>
      obtain ⟨hns, hmot, r, hr, hst, hdb2, hresp⟩ := changeStatusAff_ok hok
      subst hdb2
      unfold IdsNodup
      rw [map_id_updateById db id (statusPatch u ns motivo now) (fun _ => rfl)]
      exact ih

theorem findById_of_mem {db : DB} (hn : IdsNodup db) {a : Affiliation}
    (ha : a ∈ db) : findById db a.id = some a := by
  induction db with
  | nil => simp at ha
  | cons b t ih =>
    unfold IdsNodup at hn
    simp only [List.map_cons, List.nodup_cons] at hn
    rcases List.mem_cons.mp ha with h | h
    · subst h
      simp [findById, List.find?]
    · have hb : (b.id == a.id) = false := by
        simp only [beq_eq_false_iff_ne, ne_eq]
        intro hc
        exact hn.1 (hc ▸ List.mem_map.mpr ⟨a, h, rfl⟩)
      unfold findById
      simp only [List.find?, hb]
      exact ih hn.2 h

/-! ## C3 -/

theorem length_status_partition (l : List Affiliation) :
    l.length =
      (l.filter (fun f => f.status == "Aprobado")).length +
      (l.filter (fun f => f.status == "Rechazado")).length +
      (l.filter (fun f => f.status == "Presentado")).length +
      (l.filter (fun f =>
        !(f.status == "Aprobado" || f.status == "Rechazado" ||
          f.status == "Presentado"))).length := by
  induction l with
  | nil => rfl
  | cons a t ih =>
    have fc : ∀ (p : Affiliation → Bool), p a = true →
        (List.filter p (a :: t)).length = (List.filter p t).length + 1 := by
      intro p hp
      simp [List.filter_cons, hp]
    have fc' : ∀ (p : Affiliation → Bool), p a = false →
        (List.filter p (a :: t)).length = (List.filter p t).length := by
      intro p hp
      simp [List.filter_cons, hp]
    by_cases h1 : a.status = "Aprobado"
    · have pa : (fun f : Affiliation => f.status == "Aprobado") a = true := by
        simp [h1]
      have pr : (fun f : Affiliation => f.status == "Rechazado") a = false := by
        simp [h1]
      have pp : (fun f : Affiliation => f.status == "Presentado") a = false := by
        simp [h1]
      have po : (fun f : Affiliation =>
          !(f.status == "Aprobado" || f.status == "Rechazado" ||
            f.status == "Presentado")) a = false := by simp [h1]
      rw [List.length_cons, fc _ pa, fc' _ pr, fc' _ pp, fc' _ po]
      omega
    · by_cases h2 : a.status = "Rechazado"
      · have pa : (fun f : Affiliation => f.status == "Aprobado") a = false := by
          simp [h2]
        have pr : (fun f : Affiliation => f.status == "Rechazado") a = true := by
          simp [h2]
        have pp : (fun f : Affiliation => f.status == "Presentado") a = false := by
          simp [h2]
        have po : (fun f : Affiliation =>
            !(f.status == "Aprobado" || f.status == "Rechazado" ||
              f.status == "Presentado")) a = false := by simp [h2]
        rw [List.length_cons, fc' _ pa, fc _ pr, fc' _ pp, fc' _ po]
        omega
      · by_cases h3 : a.status = "Presentado"
        · have pa : (fun f : Affiliation => f.status == "Aprobado") a = false := by
            simp [h3]
          have pr : (fun f : Affiliation => f.status == "Rechazado") a = false := by
            simp [h3]
          have pp : (fun f : Affiliation => f.status == "Presentado") a = true := by
            simp [h3]
          have po : (fun f : Affiliation =>
              !(f.status == "Aprobado" || f.status == "Rechazado" ||
                f.status == "Presentado")) a = false := by simp [h3]
          rw [List.length_cons, fc' _ pa, fc' _ pr, fc _ pp, fc' _ po]
          omega
        · have pa : (fun f : Affiliation => f.status == "Aprobado") a = false := by
            simp [h1]
          have pr : (fun f : Affiliation => f.status == "Rechazado") a = false := by
            simp [h2]
          have pp : (fun f : Affiliation => f.status == "Presentado") a = false := by
            simp [h3]
          have po : (fun f : Affiliation =>
              !(f.status == "Aprobado" || f.status == "Rechazado" ||
                f.status == "Presentado")) a = true := by simp [h1, h2, h3]
          rw [List.length_cons, fc' _ pa, fc' _ pr, fc' _ pp, fc _ po]
          omega

/-- C3 (amended): for every dashboard fetch, `totalFichas` equals
`fichasAprobadas + fichasRechazadas + fichasPendientes` plus the
number of fetched records in any other status (`Abierta` drafts in
particular); the three-way identity of the claim holds exactly when
no fetched record carries a fourth status, and the fetch does not
exclude drafts. -/
theorem c3_dashboard_totals (db : DB) (sd ed : Nat) (v p m e : String) :
    totalFichas (dashboardFetch db sd ed v p m e) =
      fichasAprobadas (dashboardFetch db sd ed v p m e) +
      fichasRechazadas (dashboardFetch db sd ed v p m e) +
      fichasPendientes (dashboardFetch db sd ed v p m e) +
      ((dashboardFetch db sd ed v p m e).filter (fun f =>
        !(f.status == "Aprobado" || f.status == "Rechazado" ||
          f.status == "Presentado"))).length := by
  unfold totalFichas fichasAprobadas fichasRechazadas fichasPendientes
  exact length_status_partition _

/-- C3 counterexample: a fetch containing one record still in
`Abierta` (a draft inside the date range) makes
`totalFichas ≠ fichasAprobadas + fichasRechazadas + fichasPendientes`,
refuting the claimed identity for arbitrary range/filter inputs. -/
theorem c3_claim_counterexample :
    ¬ (totalFichas (dashboardFetch [recAbierta] 0 5 "" "" "" "") =
        fichasAprobadas (dashboardFetch [recAbierta] 0 5 "" "" "" "") +
        fichasRechazadas (dashboardFetch [recAbierta] 0 5 "" "" "" "") +
        fichasPendientes (dashboardFetch [recAbierta] 0 5 "" "" "" "")) := by
  decide

/-! ## C4 -/

theorem motivoBlank_false {motivo : Option String}
    (h : motivoBlank motivo = false) : ∃ m, motivo = some m ∧ m ≠ "" := by
  cases motivo with
  | none => simp [motivoBlank] at h
  | some m =>
    refine ⟨m, rfl, ?_⟩
    intro hm
    subst hm
    rw [show motivoBlank (some "") = true from by decide] at h
    exact Bool.noConfusion h

/-- C4: on every reachable table, a row's `rechazoMotivo` is non-empty
exactly when its status is `Rechazado`: the status-change endpoint
writes a validated non-blank motivo when rejecting and NULL when
approving, and no other operation touches the column. -/
theorem c4_motivo_iff_rechazado (db : DB) (hdb : Reachable db) :
    ∀ r ∈ db,
      ((∃ m, r.rechazoMotivo = some m ∧ m ≠ "") ↔ r.status = "Rechazado") := by
  induction hdb with
  | init =>
    intro r hr
    simp at hr
  | @step db db' hreach hstep ih =>
    intro r hr
    cases hstep with
    | create u fd lat lng dlat dlng newId now hfresh =>
      unfold createFicha at hr
      rcases List.mem_append.mp hr with h | h
      · exact ih r h
      · have hrn : r = newAffiliation u fd lat lng dlat dlng newId now := by
          simpa using h
        subst hrn
        constructor
        · rintro ⟨m, hm, _⟩
          simp [newAffiliation] at hm
        · intro hs
          simp [newAffiliation] at hs
    | update u id fd lat lng db2 hok =>
      exact (updateFicha_not_ok hok).elim
    | present u id n now db2 hok =>
      exact (presentFicha_not_ok hok).elim
    | change u id ns motivo now db2 resp hok =>
      obtain ⟨hns, hmot, r0, hr0, hst, hdb2, hresp⟩ := changeStatusAff_ok hok
      subst hdb2
      obtain ⟨a, ha, hra⟩ := mem_updateById hr
      by_cases hid : a.id = id
      · simp only [hid, beq_self_eq_true, if_true] at hra
        subst hra
        rcases hns with hA | hR
        · subst hA
          constructor
          · rintro ⟨m, hm, _⟩
            simp [statusPatch] at hm
          · intro hs
            simp [statusPatch] at hs
        · subst hR
          obtain ⟨m, hm, hne⟩ := motivoBlank_false (hmot rfl)
          constructor
          · intro _
            simp [statusPatch]
          · intro _
            exact ⟨m, by simp [statusPatch, hm], hne⟩
      · have hb : (a.id == id) = false := by simp [hid]
        rw [hb] at hra
        simp only [Bool.false_eq_true, if_false] at hra
        rw [hra]
        exact ih a ha

/-- Concrete run of the C4 theorem: a freshly created draft has no
rejection motivo. -/
theorem c4_motivo_iff_rechazado_witness :
    ((∃ m, recAbierta.rechazoMotivo = some m ∧ m ≠ "") ↔
      recAbierta.status = "Rechazado") := by
  have hreach : Reachable [recAbierta] :=
    Reachable.step Reachable.init
      (Step.create [] vendAlice sampleFD (some 10) (some 20) none none 1 0 rfl)
  exact c4_motivo_iff_rechazado [recAbierta] hreach recAbierta (by simp)

/-! ## C5 -/

/-- C5: evaluation of the draft-update handler at the claim's success
scenario and at a privileged caller.  The guards compare the
`undefined` array reads `checkQuery.rows.user_id` /
`checkQuery.rows.status` (the source omits `[0]`), so the creating
VENDEDOR of an existing `Abierta` row is answered 403 and a
SUPERVISOR is answered 409 on the same open row; no caller ever
reaches the UPDATE. -/
theorem c5_update_always_fails :
    updateFicha [recAbierta] vendAlice 1 sampleFD (some 1) (some 2) =
      .error .forbidden ∧
    updateFicha [recAbierta] supBob 1 sampleFD (some 1) (some 2) =
      .error .conflict ∧
    recAbierta.userId = vendAlice.userId ∧ recAbierta.status = "Abierta" :=
  ⟨rfl, rfl, rfl, rfl⟩

/-! ## Sorting lemmas -/

theorem mem_insertLe {α : Type} (le : α → α → Bool) (a x : α) (l : List α) :
    x ∈ insertLe le a l ↔ x = a ∨ x ∈ l := by
  induction l with
  | nil => simp [insertLe]
  | cons b t ih =>
    unfold insertLe
    by_cases h : le a b = true
    · simp [h]
    · simp [h, ih]
      tauto

theorem mem_sortRows {α : Type} (le : α → α → Bool) (x : α) (l : List α) :
    x ∈ sortRows le l ↔ x ∈ l := by
  induction l with
  | nil => simp [sortRows]
  | cons a t ih => simp [sortRows, mem_insertLe, ih]

theorem pairwise_insertLe {α : Type} (le : α → α → Bool)
    (htot : ∀ a b, le a b = true ∨ le b a = true)
    (htrans : ∀ x y z, le x y = true → le y z = true → le x z = true)
    (a : α) {l : List α} (h : List.Pairwise (fun x y => le x y = true) l) :
    List.Pairwise (fun x y => le x y = true) (insertLe le a l) := by
  induction l with
  | nil => simp [insertLe]
  | cons b t ih =>
    rcases List.pairwise_cons.mp h with ⟨hb, ht⟩
    unfold insertLe
    by_cases hab : le a b = true
    · simp only [hab, if_true]
      refine List.Pairwise.cons ?_ h
      intro x hx
      rcases List.mem_cons.mp hx with hxb | hxt
      · subst hxb
        exact hab
      · exact htrans a b x hab (hb x hxt)
    · simp only [hab, if_false]
      refine List.Pairwise.cons ?_ (ih ht)
      intro x hx
      rcases (mem_insertLe le a x t).mp hx with hxa | hxt
      · rw [hxa]
        rcases htot a b with h1 | h1
        · exact absurd h1 hab
        · exact h1
      · exact hb x hxt

theorem pairwise_sortRows {α : Type} (le : α → α → Bool)
    (htot : ∀ a b, le a b = true ∨ le b a = true)
    (htrans : ∀ x y z, le x y = true → le y z = true → le x z = true)
    (l : List α) :
    List.Pairwise (fun x y => le x y = true) (sortRows le l) := by
  induction l with
  | nil => simp [sortRows]
  | cons a t ih => exact pairwise_insertLe le htot htrans a ih

/-! ## C6 -/

/-- C6: a listing issued by a VENDEDOR caller only ever contains rows
created by that caller, for every filter, sort key, direction, page
and page size. -/
theorem c6_vendedor_scope (db : DB) (u : User) (page rowsPerPage : Nat)
    (filter sortBy descending : String) (r : Affiliation)
    (hrole : u.role = "VENDEDOR")
    (hmem : r ∈ listAffiliations db u page rowsPerPage filter sortBy descending) :
    r.userId = u.userId := by
  simp only [listAffiliations] at hmem
  have hs : r ∈ sortRows (rowLe sortBy descending) (listFiltered db u filter) := by
    split at hmem
    · exact List.mem_of_mem_drop hmem
    · exact List.mem_of_mem_drop (List.mem_of_mem_take hmem)
  have hf : r ∈ listFiltered db u filter := (mem_sortRows _ _ _).mp hs
  unfold listFiltered at hf
  have hp := List.of_mem_filter hf
  rw [Bool.and_eq_true] at hp
  have hv : vendedorScope u r = true := hp.1
  unfold vendedorScope at hv
  simp [hrole] at hv
  exact hv

/-- Concrete run of the C6 theorem: a VENDEDOR listing over a table
holding another vendor's row only yields their own. -/
theorem c6_vendedor_scope_witness : recAbierta.userId = vendAlice.userId :=
  c6_vendedor_scope [recAbierta, newAffiliation vendCarol sampleFD none none none none 2 3]
    vendAlice 1 20 "" "" "" recAbierta rfl (by decide)

/-! ## C7 -/

def adminRoot : User := ⟨9, "Root", "ADMINISTRADOR"⟩

def recF1 : Affiliation := newAffiliation vendAlice sampleFD none none none none 1 1

def recF2 : Affiliation := newAffiliation vendCarol sampleFD none none none none 2 2

def dbFechas : DB := [recF1, recF2]

/-- C7 (amended): with an absent or non-whitelisted sort key and no
sort direction supplied, the listing is ordered by creation timestamp
ascending (`descending === "true"` is the only way to get DESC), and
a page size of 0 omits the LIMIT clause, returning every matching
row. -/
theorem c7_default_sort (db : DB) (u : User) (page rpp : Nat)
    (filter sortBy desc : String)
    (hsort : sortBy ∉ (["titular_nombre", "plan", "total", "status",
      "vendor_name", "fecha_creacion"] : List String))
    (hdesc : desc ≠ "true") :
    List.Pairwise (fun a b : Affiliation => a.fechaCreacion ≤ b.fechaCreacion)
      (listAffiliations db u page rpp filter sortBy desc) ∧
    (rpp = 0 → ∀ r, r ∈ listAffiliations db u page rpp filter sortBy desc ↔
      r ∈ listFiltered db u filter) := by
  have hrow : ∀ a b : Affiliation, rowLe sortBy desc a b =
      decide (a.fechaCreacion ≤ b.fechaCreacion) := by
    intro a b
    have hd : (desc == "true") = false := by simp [hdesc]
    have h1 : (sortBy == "titular_nombre") = false := by
      simp only [beq_eq_false_iff_ne, ne_eq]
      intro h
      exact hsort (by simp [h])
    have h2 : (sortBy == "plan") = false := by
      simp only [beq_eq_false_iff_ne, ne_eq]
      intro h
      exact hsort (by simp [h])
    have h3 : (sortBy == "total") = false := by
      simp only [beq_eq_false_iff_ne, ne_eq]
      intro h
      exact hsort (by simp [h])
    have h4 : (sortBy == "status") = false := by
      simp only [beq_eq_false_iff_ne, ne_eq]
      intro h
      exact hsort (by simp [h])
    have h5 : (sortBy == "vendor_name") = false := by
      simp only [beq_eq_false_iff_ne, ne_eq]
      intro h
      exact hsort (by simp [h])
    unfold rowLe keyLe
    simp only [hd, h1, h2, h3, h4, h5]
    simp
  constructor
  · have hsorted : List.Pairwise
        (fun x y : Affiliation => rowLe sortBy desc x y = true)
        (sortRows (rowLe sortBy desc) (listFiltered db u filter)) :=
      pairwise_sortRows _
        (by
          intro a b
          rw [hrow, hrow]
          rcases Nat.le_total a.fechaCreacion b.fechaCreacion with h | h
          · exact Or.inl (by simpa using h)
          · exact Or.inr (by simpa using h))
        (by
          intro x y z hxy hyz
          rw [hrow] at hxy hyz ⊢
          simp only [decide_eq_true_eq] at hxy hyz ⊢
          omega)
        (listFiltered db u filter)
    have hsorted' : List.Pairwise
        (fun a b : Affiliation => a.fechaCreacion ≤ b.fechaCreacion)
        (sortRows (rowLe sortBy desc) (listFiltered db u filter)) :=
      hsorted.imp (fun {a b} h => by
        rw [hrow] at h
        simpa using h)
    simp only [listAffiliations]
    split
    · exact List.Pairwise.sublist (List.drop_sublist _ _) hsorted'
    · exact List.Pairwise.sublist
        ((List.take_sublist _ _).trans (List.drop_sublist _ _)) hsorted'
  · intro h0 r
    subst h0
    simp only [listAffiliations]
    simp [mem_sortRows]

/-- C7 counterexample: with two rows created at times 1 and 2, an
ADMINISTRADOR listing with no sort key and no direction returns them
ascending, so the rows are not ordered by creation timestamp
descending as the claim states. -/
theorem c7_claim_counterexample :
    ¬ List.Pairwise (fun a b : Affiliation => b.fechaCreacion ≤ a.fechaCreacion)
      (listAffiliations dbFechas adminRoot 1 20 "" "" "") := by
  decide

/-- Concrete run of the C7 theorem: the same listing is ascending by
creation timestamp. -/
theorem c7_default_sort_witness :
    List.Pairwise (fun a b : Affiliation => a.fechaCreacion ≤ b.fechaCreacion)
      (listAffiliations dbFechas adminRoot 1 20 "" "" "") ∧
    ((20 : Nat) = 0 → ∀ r, r ∈ listAffiliations dbFechas adminRoot 1 20 "" "" "" ↔
      r ∈ listFiltered dbFechas adminRoot "") :=
  c7_default_sort dbFechas adminRoot 1 20 "" "" "" (by decide) (by decide)

/-! ## C8 -/

/-- C8: evaluation of the present handler at the claim's success
scenario.  Presenting an existing `Abierta` row with the non-empty
number "S1" is answered 403 for the creating VENDEDOR and 409 for a
SUPERVISOR: the guards compare the `undefined` array reads
`checkQuery.rows.user_id` / `checkQuery.rows.status` (the source
omits `[0]`), so the `UPDATE ... SET status = 'Presentado',
fecha_presentacion = NOW(), form_data = $1` never runs. -/
theorem c8_present_always_fails :
    presentFicha [recAbierta] vendAlice 1 "S1" 42 = .error .forbidden ∧
    presentFicha [recAbierta] supBob 1 "S1" 42 = .error .conflict ∧
    recAbierta.status = "Abierta" :=
  ⟨rfl, rfl, rfl⟩

/-! ## C9 -/

/-- C9 (amended): the dashboard `locations` list contains exactly the
geo entries of fetched records having at least one coordinate pair
whose two coordinates are non-null AND non-zero (JS truthiness makes
the number 0 falsy), each entry tagged with the record's status; a
record whose only coordinate pair holds the value 0 is excluded. -/
theorem c9_dashboard_locations (db : DB) (sd ed : Nat) (v p m e : String)
    (q : LocPoint) :
    q ∈ dashLocations (dashboardFetch db sd ed v p m e) ↔
      ∃ f, f ∈ dashboardFetch db sd ed v p m e ∧ q = locOf f ∧
        hasCoordPair (locOf f) = true := by
  unfold dashLocations
  rw [List.mem_filter]
  constructor
  · rintro ⟨hmem, hpair⟩
    rcases List.mem_map.mp hmem with ⟨f, hf, hq⟩
    refine ⟨f, hf, hq.symm, ?_⟩
    rw [hq]
    exact hpair
  · rintro ⟨f, hf, hq, hpair⟩
    subst hq
    exact ⟨List.mem_map.mpr ⟨f, hf, rfl⟩, hpair⟩

def recZero : Affiliation :=
  newAffiliation vendAlice sampleFD (some 0) (some 0) none none 5 1

/-- C9 counterexample: a fetched record whose only coordinate pair is
the non-null `(0, 0)` is absent from `locations`, refuting the
claimed inclusion of non-null zero coordinates. -/
theorem c9_claim_counterexample :
    recZero.latitud.isSome ∧ recZero.longitud.isSome ∧
    dashLocations (dashboardFetch [recZero] 0 5 "" "" "" "") = [] := by
  refine ⟨rfl, rfl, ?_⟩
  decide

/-- Concrete run of the C9 theorem: a record with a truthy sale
coordinate pair appears in `locations` tagged with its status. -/
theorem c9_dashboard_locations_witness :
    locOf recAbierta ∈ dashLocations (dashboardFetch [recAbierta] 0 5 "" "" "" "") :=
  (c9_dashboard_locations [recAbierta] 0 5 "" "" "" "" (locOf recAbierta)).mpr
    ⟨recAbierta, by decide, rfl, by decide⟩

/-! ## C10 -/

/-- C10: the PDF endpoint renders the record for every authenticated
caller — it has no role branch and no VENDEDOR ownership restriction —
while the detail endpoint answers 404 to a VENDEDOR who is not the
creator of the same record. -/
theorem c10_pdf_no_ownership (db : DB) (u : User) (id : Nat) (r : Affiliation)
    (hfind : findById db id = some r)
    (hsame : ∀ a ∈ db, a.id = id → a.userId = r.userId) :
    (∀ v : User, pdfEndpoint db v id = .ok r) ∧
    (u.role = "VENDEDOR" → r.userId ≠ u.userId →
      getAffiliationDetail db u id = .error .notFound) := by
  constructor
  · intro v
    simp [pdfEndpoint, hfind]
  · intro hrole hne
    unfold getAffiliationDetail
    have hnone : db.find? (fun a =>
        a.id == id && (u.role != "VENDEDOR" || a.userId == u.userId)) = none := by
      rw [List.find?_eq_none]
      intro a ha
      by_cases hid : a.id = id
      · have huid : a.userId = r.userId := hsame a ha hid
        simp [hid, hrole, huid, hne]
      · simp [hid]
    rw [hnone]

/-- Concrete run of the C10 theorem: a VENDEDOR who does not own the
record gets the PDF but is denied the detail view. -/
theorem c10_pdf_no_ownership_witness :
    pdfEndpoint [recAbierta] vendCarol 1 = .ok recAbierta ∧
    getAffiliationDetail [recAbierta] vendCarol 1 = .error .notFound := by
  have h := c10_pdf_no_ownership [recAbierta] vendCarol 1 recAbierta rfl
    (by decide)
  exact ⟨h.1 vendCarol, h.2 rfl (by decide)⟩

end Ficha
